import Mathlib

set_option maxRecDepth 8000

/-!
Verification development for the resume-extraction pipeline
(`src/ai_parser.py`, `src/app.py`).  The Python functions are shallowly
embedded: regular expressions become backtracking matchers over
`List Char` with Python `re.search` semantics (leftmost start position,
alternatives tried in written order, greedy quantifiers), and the
network-facing AI calls are parameterized by an abstract environment
holding the credential flag, the HTTP outcome and the JSON-parse oracle.
-/

/-- Python whitespace for `str.strip` and the regex class `\s`
(space, tab, newline, carriage return, vertical tab, form feed). -/
def isPySpace (c : Char) : Bool :=
  c == ' ' || c == '\t' || c == '\n' || c == '\r' ||
  c == Char.ofNat 11 || c == Char.ofNat 12

/-- The regex class `[\s.-]` used as separator inside phone patterns. -/
def isSepChar (c : Char) : Bool := isPySpace c || c == '.' || c == '-'

/-- Python `str.lower` restricted to ASCII, as the source only handles
ASCII resume text. -/
def pyLowerChar (c : Char) : Char := c.toLower

/-- Python `str.strip()`: drop leading and trailing whitespace. -/
def pyStrip (l : List Char) : List Char :=
  ((l.dropWhile isPySpace).reverse.dropWhile isPySpace).reverse

/-- `begins p s` holds when `p` is an initial segment of `s`
(Python `str.startswith`). -/
def begins : List Char → List Char → Bool
  | [], _ => true
  | _ :: _, [] => false
  | a :: p, b :: s => a == b && begins p s

/-- Python `needle in hay` for strings. -/
def containsSub (p : List Char) : List Char → Bool
  | [] => p.isEmpty
  | c :: r => begins p (c :: r) || containsSub p r

/-- First `some` in a list of options; models a Python loop that
returns on the first hit and falls through otherwise. -/
def firstSome {α : Type} : List (Option α) → Option α
  | [] => none
  | none :: r => firstSome r
  | some x :: _ => some x

/-- Python `str.split()` with no argument: whitespace-separated tokens,
empties dropped. -/
def splitWSAux : List Char → List Char → List (List Char)
  | [], acc => if acc.isEmpty then [] else [acc.reverse]
  | c :: r, acc =>
    if isPySpace c then
      if acc.isEmpty then splitWSAux r [] else acc.reverse :: splitWSAux r []
    else splitWSAux r (c :: acc)

def splitWS (l : List Char) : List (List Char) := splitWSAux l []

/-- Python `str.split` on a single character, keeping empty pieces. -/
def splitOnCharAux (sep : Char) : List Char → List Char → List (List Char)
  | [], acc => [acc.reverse]
  | c :: r, acc =>
    if c == sep then acc.reverse :: splitOnCharAux sep r []
    else splitOnCharAux sep r (c :: acc)

def splitOnChar (sep : Char) (l : List Char) : List (List Char) :=
  splitOnCharAux sep l []

/-- `re.split` on a character class, keeping empty pieces. -/
def splitOnPredAux (p : Char → Bool) : List Char → List Char → List (List Char)
  | [], acc => [acc.reverse]
  | c :: r, acc =>
    if p c then acc.reverse :: splitOnPredAux p r []
    else splitOnPredAux p r (c :: acc)

def splitOnPred (p : Char → Bool) (l : List Char) : List (List Char) :=
  splitOnPredAux p l []

/-!
## Backtracking regex matchers

A matcher sends an input suffix to the list of `(consumed, rest)` splits
it can produce, in the priority order Python's backtracking engine would
try them (alternatives in written order, greedy quantifiers longest
first).  The head of that list is the match `re` reports.
-/

def Matcher : Type := List Char → List (List Char × List Char)

/-- Matches the empty string. -/
def mEps : Matcher := fun s => [([], s)]

/-- Single character from a class. -/
def mCls (p : Char → Bool) : Matcher := fun s =>
  match s with
  | [] => []
  | c :: r => if p c then [([c], r)] else []

/-- Concatenation, exploring the left matcher's splits in order. -/
def mSeq (a b : Matcher) : Matcher := fun s =>
  (a s).flatMap (fun pr => (b pr.2).map (fun q => (pr.1 ++ q.1, q.2)))

/-- Alternation in written order. -/
def mAlt (a b : Matcher) : Matcher := fun s => a s ++ b s

/-- Greedy `?`: try consuming first, then the empty alternative. -/
def mOpt (a : Matcher) : Matcher := fun s => a s ++ [([], s)]

/-- Greedy `*` over a character class: longest consumption first. -/
def mStarCls (p : Char → Bool) : List Char → List (List Char × List Char)
  | [] => [([], [])]
  | c :: r =>
    if p c then ((mStarCls p r).map (fun q => (c :: q.1, q.2))) ++ [([], c :: r)]
    else [([], c :: r)]

/-- Greedy `+` over a character class. -/
def mPlusCls (p : Char → Bool) : Matcher := mSeq (mCls p) (mStarCls p)

/-- Exactly `n` repetitions. -/
def mRep (a : Matcher) : Nat → Matcher
  | 0 => mEps
  | n + 1 => mSeq a (mRep a n)

/-- Literal string. -/
def mLit (w : List Char) : Matcher :=
  w.foldr (fun ch m => mSeq (mCls (fun c => c == ch)) m) mEps

/-- Case-insensitive literal (the source compiles its patterns with
`re.IGNORECASE`). -/
def mLitCI (w : List Char) : Matcher :=
  w.foldr (fun ch m => mSeq (mCls (fun c => pyLowerChar c == pyLowerChar ch)) m) mEps

/-- `re.search` for a pattern without groups: scan start positions left
to right, report the engine's first match at the first viable start. -/
def searchM (m : Matcher) : List Char → Option (List Char)
  | [] => ((m []).head?).map (fun pr => pr.1)
  | c :: r =>
    match (m (c :: r)).head? with
    | some pr => some pr.1
    | none => searchM m r

/-- At one start position: match `lab` (a group-less prelude) then the
capture group `grp`, reporting the group's text of the engine's first
overall match. -/
def groupAt (lab grp : Matcher) (s : List Char) : Option (List Char) :=
  ((lab s).flatMap (fun pr => (grp pr.2).map (fun q => q.1))).head?

/-- `re.search` reporting `match.group(1)`: leftmost start position wins. -/
def searchG (lab grp : Matcher) : List Char → Option (List Char)
  | [] => groupAt lab grp []
  | c :: r =>
    match groupAt lab grp (c :: r) with
    | some g => some g
    | none => searchG lab grp r

/-!
## Pattern library (`src/ai_parser.py` lines 21-48)
-/

/-- Character class of the email local part, `[a-zA-Z0-9._%+-]`. -/
def localChar (c : Char) : Bool :=
  c.isAlpha || c.isDigit || c == '.' || c == '_' || c == '%' || c == '+' || c == '-'

/-- Character class of the email domain, `[a-zA-Z0-9.-]`. -/
def domChar (c : Char) : Bool := c.isAlpha || c.isDigit || c == '.' || c == '-'

/-- `EMAIL_PATTERN`: the regex
`[a-zA-Z0-9._%+-]+@[a-zA-Z0-9.-]+\.[a-zA-Z]{2,}`; the `{2,}` is encoded
as two mandatory letters followed by a greedy letter star. -/
def EMAIL_PATTERN : Matcher :=
  mSeq (mPlusCls localChar)
    (mSeq (mCls (fun c => c == '@'))
      (mSeq (mPlusCls domChar)
        (mSeq (mCls (fun c => c == '.'))
          (mSeq (mCls Char.isAlpha) (mSeq (mCls Char.isAlpha) (mStarCls Char.isAlpha))))))

def mDigit : Matcher := mCls Char.isDigit
def mSep : Matcher := mCls isSepChar
def mWs : Matcher := mCls isPySpace
def m29 : Matcher := mCls (fun c => '2' ≤ c && c ≤ '9')

/-- Group of `PHONE_PATTERNS[0]`: `\+61\s?[2-9](?:[\s.-]?\d){8}`. -/
def phonePat1 : Matcher :=
  mSeq (mLit ("+61".data))
    (mSeq (mOpt mWs) (mSeq m29 (mRep (mSeq (mOpt mSep) mDigit) 8)))

/-- Group of `PHONE_PATTERNS[1]`: `\+61\s?4\d{2}(?:[\s.-]?\d){6}`. -/
def phonePat2 : Matcher :=
  mSeq (mLit ("+61".data))
    (mSeq (mOpt mWs)
      (mSeq (mLit ("4".data))
        (mSeq (mRep mDigit 2) (mRep (mSeq (mOpt mSep) mDigit) 6))))

/-- Group of `PHONE_PATTERNS[2]`: `04\d{2}[\s.-]?\d{3}[\s.-]?\d{3}`. -/
def phonePat3 : Matcher :=
  mSeq (mLit ("04".data))
    (mSeq (mRep mDigit 2)
      (mSeq (mOpt mSep)
        (mSeq (mRep mDigit 3) (mSeq (mOpt mSep) (mRep mDigit 3)))))

/-- Group of `PHONE_PATTERNS[3]`: `04\d{8}`. -/
def phonePat4 : Matcher := mSeq (mLit ("04".data)) (mRep mDigit 8)

/-- Group of `PHONE_PATTERNS[4]`: `0[2-9]\d{2}[\s.-]?\d{3}[\s.-]?\d{3}`. -/
def phonePat5 : Matcher :=
  mSeq (mLit ("0".data))
    (mSeq m29
      (mSeq (mRep mDigit 2)
        (mSeq (mOpt mSep)
          (mSeq (mRep mDigit 3) (mSeq (mOpt mSep) (mRep mDigit 3))))))

/-- Group of `PHONE_PATTERNS[5]`: `0[2-9]\s?\d{4}\s?\d{4}`. -/
def phonePat6 : Matcher :=
  mSeq (mLit ("0".data))
    (mSeq m29
      (mSeq (mOpt mWs)
        (mSeq (mRep mDigit 4) (mSeq (mOpt mWs) (mRep mDigit 4)))))

/-- Group of `PHONE_PATTERNS[6]`: `\(\+?61\)\s?[2-9](?:[\s.-]?\d){8}`. -/
def phonePat7 : Matcher :=
  mSeq (mLit ("(".data))
    (mSeq (mOpt (mLit ("+".data)))
      (mSeq (mLit ("61)".data))
        (mSeq (mOpt mWs) (mSeq m29 (mRep (mSeq (mOpt mSep) mDigit) 8)))))

/-- Group of `PHONE_PATTERNS[7]`: `\+61\s?[2-9]\d{8}`. -/
def phonePat8 : Matcher :=
  mSeq (mLit ("+61".data)) (mSeq (mOpt mWs) (mSeq m29 (mRep mDigit 8)))

/-- Group of `PHONE_PATTERNS[8]`: `0[2-9]\d{8}`. -/
def phonePat9 : Matcher := mSeq (mLit ("0".data)) (mSeq m29 (mRep mDigit 8))

/-- The nine capture groups of `PHONE_PATTERNS`, in source order. -/
def PHONE_PATTERNS : List Matcher :=
  [phonePat1, phonePat2, phonePat3, phonePat4, phonePat5,
   phonePat6, phonePat7, phonePat8, phonePat9]

/-- One labelled alternative of the shared optional prelude, e.g.
`Phone:?\s*` (case-insensitive). -/
def labelWord (w : List Char) : Matcher :=
  mSeq (mLitCI w) (mSeq (mOpt (mCls (fun c => c == ':'))) (mStarCls isPySpace))

/-- The shared group-less prelude
`(?:Phone:?\s*|Mobile:?\s*|Tel:?\s*|Ph:?\s*)?` of every phone pattern. -/
def PHONE_LABEL : Matcher :=
  mOpt (mAlt (labelWord ("phone".data))
    (mAlt (labelWord ("mobile".data))
      (mAlt (labelWord ("tel".data)) (labelWord ("ph".data)))))

/-- `SKIP_WORDS`, the section-header words rejected as names. -/
def SKIP_WORDS : List String :=
  ["resume", "cv", "curriculum", "vitae", "profile", "summary",
   "objective", "experience", "education", "skills", "contact",
   "phone", "email", "address", "mobile", "tel", "linkedin",
   "github", "portfolio", "website", "references", "personal",
   "professional", "career", "work", "employment", "history",
   "background", "overview", "introduction", "about", "me",
   "certifications", "certificates", "training", "qualifications"]

/-- The honorific titles the source strips from the front of name
lines before validating them. -/
def NAME_TITLES : List String :=
  ["mr", "mrs", "ms", "miss", "dr", "prof", "sir", "madam"]

/-!
## Field extractors (`src/ai_parser.py` lines 51-171)
-/

/-- `extract_email`: first `EMAIL_PATTERN` match (group 0) or `None`. -/
def extract_email (text : String) : Option String :=
  (searchM EMAIL_PATTERN text.data).map (fun l => String.mk l)

/-- `re.sub(r'[\s.-]+', ' ', phone)`: collapse every run of
separator characters into a single space. -/
def collapseSeps : List Char → List Char
  | [] => []
  | [c] => if isSepChar c then [' '] else [c]
  | c :: d :: r =>
    if isSepChar c then
      if isSepChar d then collapseSeps (d :: r) else ' ' :: collapseSeps (d :: r)
    else c :: collapseSeps (d :: r)

/-- One iteration of the `extract_phone` loop: search one pattern; on a
match, normalize separators, strip, and keep the value only when its
digit count is within `[9, 12]`. -/
def phoneFromPat (g : Matcher) (text : List Char) : Option String :=
  match searchG PHONE_LABEL g text with
  | none => none
  | some grp =>
    let ph := pyStrip (collapseSeps grp)
    let d := (ph.filter Char.isDigit).length
    if 9 ≤ d ∧ d ≤ 12 then some (String.mk ph) else none

/-- `extract_phone`: try the patterns in order, return the first
normalized match passing the digit-count guard. -/
def extract_phone (text : String) : Option String :=
  firstSome (PHONE_PATTERNS.map (fun g => phoneFromPat g text.data))

/-- The skip test of `extract_name`: some skip word equals the
lowercased line, or leads it followed by `:` or a space, and the first
character of the stripped remainder of the original line is not
uppercase.  The source iterates over a set and only ever flips `skip`
to `True`, so existence over the words is order-independent. -/
def isSkipLine (line lower : List Char) : Bool :=
  SKIP_WORDS.any (fun w =>
    (lower == w.data || begins (w.data ++ [':']) lower || begins (w.data ++ [' ']) lower)
    && !(((pyStrip (line.drop w.data.length)).take 1).any Char.isUpper))

/-- The honorific-stripping step of `extract_name`: if the lowercased
line opens with a title followed by a space or a dot, drop the title
and strip; a remaining leading dot is dropped too.  The title
conditions are mutually exclusive, so set order again does not matter. -/
def stripTitle (line lower : List Char) : List Char :=
  match NAME_TITLES.find? (fun t =>
      begins (t.data ++ [' ']) lower || begins (t.data ++ ['.']) lower) with
  | none => line
  | some t =>
    let c := pyStrip (line.drop t.data.length)
    match c with
    | '.' :: rest => pyStrip rest
    | _ => c

/-- Word validation inside `extract_name`: after deleting hyphens,
apostrophes and dots, a word is kept when it is alphabetic with an
uppercase first letter, or fully uppercase with length above one.
Python `str.isupper` needs at least one cased character and no cased
lowercase one. -/
def wordClean (w : List Char) : List Char :=
  w.filter (fun c => !(c == '-' || c == '\'' || c == '.'))

def pyIsUpperStr (w : List Char) : Bool :=
  w.any Char.isAlpha && w.all (fun c => !Char.isAlpha c || Char.isUpper c)

def validWordCheck (w : List Char) : Bool :=
  let cw := wordClean w
  (match cw with
   | [] => false
   | c :: _ => c.isUpper && cw.all Char.isAlpha)
  || (pyIsUpperStr cw && 1 < cw.length)

/-- The body of the per-line loop of `extract_name` (lines 77-123 of
the source): strip, reject short, skip-word, email-bearing, digit-heavy
and long lines, strip titles, and accept when all 1-5 words validate. -/
def nameFromLine (raw : List Char) : Option (List Char) :=
  let line := pyStrip raw
  if line.length < 3 then none
  else
    let lower := line.map pyLowerChar
    if isSkipLine line lower then none
    else if line.any (fun c => c == '@') then none
    else if 3 < (line.filter Char.isDigit).length then none
    else if 60 < line.length then none
    else
      let cleaned := stripTitle line lower
      let words := splitWS cleaned
      if 1 ≤ words.length ∧ words.length ≤ 5 ∧ words.all validWordCheck then
        some cleaned
      else none

/-- `extract_name`: first accepted candidate among the first 15 lines. -/
def extract_name (text : String) : Option String :=
  (firstSome (((splitOnChar '\n' text.data).take 15).map nameFromLine)).map
    (fun l => String.mk l)

/-- Python `str.capitalize`: first character uppercased, rest lowered. -/
def pyCapitalize : List Char → List Char
  | [] => []
  | c :: r => c.toUpper :: r.map pyLowerChar

/-- Join with single spaces (Python `' '.join`). -/
def joinSpace : List (List Char) → List Char
  | [] => []
  | [w] => w
  | w :: r => w ++ ' ' :: joinSpace r

/-- `extract_name_from_email`: on the local part, delete digits, split
on `[._-]`, capitalize the pieces longer than one character, and accept
when at least two pieces remain. -/
def extract_name_from_email (email : String) : Option String :=
  if email == "" then none
  else
    let localPart := email.data.takeWhile (fun c => !(c == '@'))
    let noDigits := localPart.filter (fun c => !c.isDigit)
    let parts := splitOnPred (fun c => c == '.' || c == '_' || c == '-') noDigits
    let nameParts := (parts.filter (fun p => 1 < p.length)).map pyCapitalize
    if 2 ≤ nameParts.length then some (String.mk (joinSpace nameParts)) else none

/-- Python truthiness of an optional string: `None` and `""` are falsy. -/
def optTruthy : Option String → Bool
  | none => false
  | some s => !(s == "")

/-- The record returned by the regex stage. -/
structure RegexResult where
  name : Option String
  email : Option String
  phone : Option String
deriving DecidableEq

/-- `extract_with_regex` (lines 153-171): run the three extractors and
fall back to the email-derived name when no name line matched. -/
def extract_with_regex (text : String) : RegexResult :=
  let email := extract_email text
  let phone := extract_phone text
  let name := extract_name text
  let name :=
    if !(optTruthy name) && optTruthy email then
      extract_name_from_email (email.getD (""))
    else name
  ⟨name, email, phone⟩

/-!
## AI stage (`src/ai_parser.py` lines 174-376)

The network call is external.  Its observable outcome is abstracted to
an HTTP outcome (a status code with the completion content on 200, a
timeout, or a transport error) and a JSON-parse oracle standing for
`json.loads` plus the three `data.get` reads; both live in `AIEnv`.
Everything the source does around them is embedded literally.
-/

/-- The three optional fields read out of a parsed model response. -/
structure AIData where
  name : Option String
  email : Option String
  phone : Option String
deriving DecidableEq

/-- Outcome of one HTTPS completion request. -/
inductive HttpOut where
  | status (code : Nat) (content : String)
  | timeout
  | netErr (msg : String)
deriving DecidableEq

/-- Abstract environment: credential present, outcome of the text and
vision calls, JSON parsing oracle. -/
structure AIEnv where
  hasKey : Bool
  textHttp : HttpOut
  visionHttp : HttpOut
  jparse : String → Option AIData

def emptyAI : AIData := ⟨none, none, none⟩

/-- The backquote character, to model the code-fence check. -/
def bq : Char := Char.ofNat 96

/-- Does the content contain a triple-backquote fence? -/
def beginsBq3 (s : List Char) : Bool := begins [bq, bq, bq] s

def containsBq3 : List Char → Bool
  | [] => false
  | c :: r => beginsBq3 (c :: r) || containsBq3 r

/-- `content.split(three backquotes)`, fuelled to stay structural. -/
def splitBq3F : Nat → List Char → List Char → List (List Char)
  | _, [], acc => [acc.reverse]
  | 0, s, acc => [acc.reverse ++ s]
  | n + 1, c :: r, acc =>
    if beginsBq3 (c :: r) then acc.reverse :: splitBq3F n (r.drop 2) []
    else splitBq3F n r (c :: acc)

def splitBq3 (s : List Char) : List (List Char) := splitBq3F s.length s []

/-- Response-content preprocessing (lines 243-247 and 343-347): when a
fence is present take the piece after the first fence and drop a
leading `json` tag. -/
def stripFence (content : List Char) : List Char :=
  if containsBq3 content then
    let piece := (splitBq3 content).getD 1 []
    if begins ("json".data) piece then piece.drop 4 else piece
  else content

/-- `extract_with_ai_text` (lines 179-262) as a function of the
environment: credential check, status dispatch, fence stripping, parse. -/
def extract_with_ai_text (env : AIEnv) : AIData × Bool × Option String :=
  if !env.hasKey then (emptyAI, false, some ("No API key configured"))
  else
    match env.textHttp with
    | HttpOut.timeout => (emptyAI, false, some ("AI request timed out"))
    | HttpOut.netErr m => (emptyAI, false, some ("AI request failed: " ++ m))
    | HttpOut.status code content =>
      if code == 402 then (emptyAI, false, some ("Insufficient AI credits"))
      else if code == 429 then (emptyAI, false, some ("AI rate limit exceeded"))
      else if !(code == 200) then
        (emptyAI, false, some ("AI API error: " ++ toString code))
      else
        match env.jparse (String.mk (pyStrip (stripFence content.data))) with
        | some d => (d, true, none)
        | none => (emptyAI, false, some ("Failed to parse AI response"))

/-- `extract_with_ai_vision` (lines 265-362); the page images are
abstract handles, only their presence matters. -/
def extract_with_ai_vision (env : AIEnv) (images : List Nat) :
    AIData × Bool × Option String :=
  if !env.hasKey then (emptyAI, false, some ("No API key configured"))
  else if images.isEmpty then (emptyAI, false, some ("No images provided"))
  else
    match env.visionHttp with
    | HttpOut.timeout => (emptyAI, false, some ("AI vision request timed out"))
    | HttpOut.netErr m => (emptyAI, false, some ("AI vision request failed: " ++ m))
    | HttpOut.status code content =>
      if code == 402 then (emptyAI, false, some ("Insufficient AI credits"))
      else if code == 429 then (emptyAI, false, some ("AI rate limit exceeded"))
      else if !(code == 200) then
        (emptyAI, false, some ("AI API error: " ++ toString code))
      else
        match env.jparse (String.mk (pyStrip (stripFence content.data))) with
        | some d => (d, true, none)
        | none => (emptyAI, false, some ("Failed to parse AI response"))

/-- `check_ai_credits` (lines 365-376): only tests the credential. -/
def check_ai_credits (hasKey : Bool) : Bool × Option String :=
  if hasKey then (true, none) else (false, some ("No API key configured"))

/-- The result record built by `process_resume`.  The source dictionary
has exactly the keys `name`, `email`, `phone`, `ai_used`, `error`; in
particular it carries no confidence or method entries. -/
structure ResumeResult where
  name : Option String
  email : Option String
  phone : Option String
  ai_used : Bool
  error : Option String
deriving DecidableEq

/-- Python truthiness of the `images` argument. -/
def imagesTruthy : Option (List Nat) → Bool
  | none => false
  | some l => !l.isEmpty

/-- `process_resume` (lines 379-434).  Image-based documents with
images go straight to the vision call; otherwise the regex stage runs,
and the text AI call only fills the fields regex left falsy.  On AI
failure the regex values survive and the message lands in `error`; with
no credential the message is recorded only when regex found nothing. -/
def process_resume (env : AIEnv) (text : String) (is_image_based : Bool)
    (images : Option (List Nat)) : ResumeResult :=
  if is_image_based && imagesTruthy images then
    let v := extract_with_ai_vision env (images.getD [])
    if v.2.1 then ⟨v.1.name, v.1.email, v.1.phone, true, none⟩
    else ⟨none, none, none, false, v.2.2⟩
  else
    let rr := extract_with_regex text
    if !optTruthy rr.name || !optTruthy rr.email || !optTruthy rr.phone then
      let cr := check_ai_credits env.hasKey
      if cr.1 then
        let a := extract_with_ai_text env
        if a.2.1 then
          ⟨if !optTruthy rr.name && optTruthy a.1.name then a.1.name else rr.name,
           if !optTruthy rr.email && optTruthy a.1.email then a.1.email else rr.email,
           if !optTruthy rr.phone && optTruthy a.1.phone then a.1.phone else rr.phone,
           true, none⟩
        else
          match a.2.2 with
          | some e => ⟨rr.name, rr.email, rr.phone, false, some e⟩
          | none => ⟨rr.name, rr.email, rr.phone, false, none⟩
      else
        if cr.2.isSome && !optTruthy rr.name && !optTruthy rr.email
            && !optTruthy rr.phone then
          ⟨rr.name, rr.email, rr.phone, false, cr.2⟩
        else ⟨rr.name, rr.email, rr.phone, false, none⟩
    else ⟨rr.name, rr.email, rr.phone, false, none⟩

/-!
## Caller (`src/app.py` lines 217-304)

`process_file` calls `process_resume(text, api_key)`, so the key string
lands in the `is_image_based` parameter and `images` stays `None`.  The
returned dictionary has no `confidence` or `methods` keys, so the
`.get` defaults (all `0.0`, all `"none"`) always apply.
-/

/-- The per-file record assembled by `app.process_file`. -/
structure FileResult where
  name : Option String
  email : Option String
  phone : Option String
  ai_used : Bool
  error : Option String
  status : String
  confidence_name : ℚ
  confidence_email : ℚ
  confidence_phone : ℚ
  method_name : String
  method_email : String
  method_phone : String
deriving DecidableEq

/-- `process_file` on the path where text extraction succeeded; the
empty-text branch and the two status tests are embedded literally. -/
def process_file (env : AIEnv) (apiKey : String) (text : String) : FileResult :=
  if (pyStrip text.data).isEmpty then
    ⟨none, none, none, false, some ("No text could be extracted"), "error",
     0, 0, 0, "none", "none", "none"⟩
  else
    let ex := process_resume env text (!(apiKey == "")) none
    let status :=
      if (match ex.error with
          | some e => containsSub ("credit".data) (e.data.map pyLowerChar)
          | none => false) then "credit_error"
      else if optTruthy ex.name || optTruthy ex.email || optTruthy ex.phone then
        "success"
      else "partial"
    ⟨ex.name, ex.email, ex.phone, ex.ai_used, ex.error, status,
     0, 0, 0, "none", "none", "none"⟩

/-!
## Concrete inputs and environments used by the claims
-/

/-- Scenario A text from the specification. -/
def scenarioA : String := "John Smith\njohn.smith@email.com\n0412 345 678"

/-- Scenario B text: the subject's labelled mobile line comes before a
references block holding a landline. -/
def scenarioB : String :=
  "John Smith\nMobile: 0412 345 678\nExperience at Axio\nReferences: Jane Doe, 02 9876 5432"

/-- A text whose regex stage finds only a phone number. -/
def textPhoneOnly : String := "zz\n0412 345 678"

/-- A text whose regex stage finds only an email address. -/
def textEmailOnly : String := "Contact: john@x.com"

/-- An email-only text whose local part yields six name tokens. -/
def textSixTokens : String := "ab.cd.ef.gh.ij.kl@x.com"

/-- Environment with no credential. -/
def envNoKey : AIEnv := ⟨false, HttpOut.timeout, HttpOut.timeout, fun _ => none⟩

/-- Environment whose text call answers HTTP 402. -/
def env402 : AIEnv :=
  ⟨true, HttpOut.status 402 (""), HttpOut.timeout, fun _ => none⟩

/-- Environment whose text call returns the bare sentinel, which
`json.loads` rejects; the oracle accordingly parses nothing. -/
def envBadJson : AIEnv :=
  ⟨true, HttpOut.status 200 ("NOT_FOUND"), HttpOut.timeout, fun _ => none⟩

/-- Environment whose text call succeeds and reports a different phone
than the regex stage found. -/
def envAiPhone : AIEnv :=
  ⟨true, HttpOut.status 200 ("{...}"), HttpOut.timeout,
   fun _ => some ⟨some ("Zed Zed"), none, some ("02 9876 5432")⟩⟩

/-- Environment whose vision call succeeds with all three fields. -/
def envVision : AIEnv :=
  ⟨true, HttpOut.timeout, HttpOut.status 200 ("{...}"),
   fun _ => some ⟨some ("Vera Vision"), some ("v@ocr.co"), some ("0412 111 222")⟩⟩

/-- Modelled from the spec: the normalization it prescribes for phone
reconciliation — strip spaces, hyphens, parentheses and plus signs.
`process_resume` in the source has no counterpart of it; the definition
exists only to compare the spec's claim with the code's behavior. -/
def specNormalizePhone (s : String) : String :=
  String.mk (s.data.filter (fun c =>
    !(c == ' ' || c == '-' || c == '(' || c == ')' || c == '+')))

/-!
## Shared lemmas
-/

theorem head?_mem {α : Type} {l : List α} {x : α} (h : l.head? = some x) :
    x ∈ l := by
  cases l with
  | nil => simp at h
  | cons a t => simp at h; simp [h]

theorem firstSome_mem {α : Type} {l : List (Option α)} {x : α}
    (h : firstSome l = some x) : some x ∈ l := by
  induction l with
  | nil => simp [firstSome] at h
  | cons o r ih =>
    cases o with
    | none => exact List.mem_cons_of_mem _ (ih h)
    | some y => simp [firstSome] at h; simp [h]

theorem mem_mSeq {a b : Matcher} {s c r : List Char}
    (h : (c, r) ∈ mSeq a b s) :
    ∃ c1 r1 c2, (c1, r1) ∈ a s ∧ (c2, r) ∈ b r1 ∧ c = c1 ++ c2 := by
  simp only [mSeq, List.mem_flatMap, List.mem_map] at h
  obtain ⟨pr, hpr, q, hq, heq⟩ := h
  refine ⟨pr.1, pr.2, q.1, hpr, ?_, ?_⟩
  · have h2 : q.2 = r := congrArg Prod.snd heq
    rw [← h2]; exact hq
  · exact (congrArg Prod.fst heq).symm

theorem mem_mCls {p : Char → Bool} {s c r : List Char}
    (h : (c, r) ∈ mCls p s) : ∃ ch, c = [ch] ∧ p ch = true := by
  unfold mCls at h
  cases s with
  | nil => simp at h
  | cons x t =>
    by_cases hp : p x
    · simp [hp] at h; exact ⟨x, by simp [h.1], hp⟩
    · simp [hp] at h

theorem mem_mStarCls {p : Char → Bool} {s c r : List Char}
    (h : (c, r) ∈ mStarCls p s) : ∀ ch ∈ c, p ch = true := by
  induction s generalizing c r with
  | nil =>
    simp [mStarCls] at h
    simp [h.1]
  | cons x t ih =>
    rw [mStarCls] at h
    by_cases hp : p x
    · rw [if_pos hp] at h
      rcases List.mem_append.mp h with hl | hr
      · simp only [List.mem_map] at hl
        obtain ⟨q, hq, heq⟩ := hl
        have hc : c = x :: q.1 := (congrArg Prod.fst heq).symm
        subst hc
        intro ch hch
        rcases List.mem_cons.mp hch with he | hm
        · rw [he]; exact hp
        · exact ih hq ch hm
      · simp at hr; simp [hr.1]
    · rw [if_neg hp] at h
      simp at h; simp [h.1]

theorem mem_mPlusCls {p : Char → Bool} {s c r : List Char}
    (h : (c, r) ∈ mPlusCls p s) : c ≠ [] ∧ ∀ ch ∈ c, p ch = true := by
  obtain ⟨c1, r1, c2, h1, h2, hc⟩ := mem_mSeq h
  obtain ⟨ch, hch, hpch⟩ := mem_mCls h1
  subst hc; subst hch
  refine ⟨by simp, ?_⟩
  intro d hd
  rcases List.mem_append.mp hd with hl | hr
  · rcases List.mem_singleton.mp (by simpa using hl) with he
    rw [he]; exact hpch
  · exact mem_mStarCls h2 d hr

theorem searchM_sound {m : Matcher} {l c : List Char}
    (h : searchM m l = some c) : ∃ s r, (c, r) ∈ m s := by
  induction l with
  | nil =>
    unfold searchM at h
    obtain ⟨pr, hpr, he⟩ := Option.map_eq_some'.mp h
    exact ⟨[], pr.2, by rw [← he]; exact head?_mem hpr⟩
  | cons a t ih =>
    unfold searchM at h
    cases heq : (m (a :: t)).head? with
    | some pr =>
      rw [heq] at h
      simp at h
      exact ⟨a :: t, pr.2, by rw [← h]; exact head?_mem heq⟩
    | none =>
      rw [heq] at h
      exact ih h

theorem head?_dropWhile_false {α : Type} (p : α → Bool) (l : List α) {c : α}
    (h : (l.dropWhile p).head? = some c) : p c = false := by
  induction l with
  | nil => simp [List.dropWhile] at h
  | cons a t ih =>
    rw [List.dropWhile_cons] at h
    by_cases hp : p a
    · rw [if_pos hp] at h; exact ih h
    · rw [if_neg hp] at h
      simp at h
      rw [← h]
      exact Bool.of_not_eq_true hp

theorem dropWhile_eq_self_of_head {α : Type} (p : α → Bool) (l : List α)
    (h : ∀ c, l.head? = some c → p c = false) : l.dropWhile p = l := by
  cases l with
  | nil => rfl
  | cons a t =>
    rw [List.dropWhile_cons, h a rfl]
    simp

theorem getLast?_dropWhile {α : Type} (p : α → Bool) (l : List α)
    (h : l.dropWhile p ≠ []) : (l.dropWhile p).getLast? = l.getLast? := by
  induction l with
  | nil => simp [List.dropWhile] at h
  | cons a t ih =>
    rw [List.dropWhile_cons] at h ⊢
    by_cases hp : p a
    · rw [if_pos hp] at h ⊢
      have ht : t ≠ [] := by
        intro e; subst e; simp [List.dropWhile] at h
      rw [ih h]
      cases t with
      | nil => exact absurd rfl ht
      | cons b m => rw [List.getLast?_cons_cons]
    · rw [if_neg hp]

theorem pyStrip_idem (l : List Char) : pyStrip (pyStrip l) = pyStrip l := by
  unfold pyStrip
  by_cases hv : (l.dropWhile isPySpace).reverse.dropWhile isPySpace = []
  · rw [hv]; simp [List.dropWhile]
  · have h1 : ∀ c,
        (((l.dropWhile isPySpace).reverse.dropWhile isPySpace).reverse).head? = some c →
        isPySpace c = false := by
      intro c hc
      rw [List.head?_reverse] at hc
      rw [getLast?_dropWhile _ _ hv] at hc
      rw [List.getLast?_reverse] at hc
      exact head?_dropWhile_false isPySpace l hc
    rw [dropWhile_eq_self_of_head _ _ h1, List.reverse_reverse]
    have h2 : ∀ c,
        ((l.dropWhile isPySpace).reverse.dropWhile isPySpace).head? = some c →
        isPySpace c = false :=
      fun c hc => head?_dropWhile_false isPySpace (l.dropWhile isPySpace).reverse hc
    rw [dropWhile_eq_self_of_head _ _ h2]

/-- Every string the email matcher can consume decomposes as
`local ++ at-sign ++ domain ++ dot ++ tld` with a tld of length at
least two. -/
theorem mem_email_shape {s c r : List Char} (h : (c, r) ∈ EMAIL_PATTERN s) :
    ∃ l d t, c = l ++ '@' :: (d ++ '.' :: t) ∧ 2 ≤ t.length := by
  unfold EMAIL_PATTERN at h
  obtain ⟨l, r1, c2, hl, h2, hc⟩ := mem_mSeq h
  obtain ⟨ca, r2, c3, hat, h3, hc2⟩ := mem_mSeq h2
  obtain ⟨d, r3, c4, hd, h4, hc3⟩ := mem_mSeq h3
  obtain ⟨cd, r4, c5, hdot, h5, hc4⟩ := mem_mSeq h4
  obtain ⟨t1, r5, c6, ht1, h6, hc5⟩ := mem_mSeq h5
  obtain ⟨t2, r6, c7, ht2, h7, hc6⟩ := mem_mSeq h6
  obtain ⟨a1, hae, ha⟩ := mem_mCls hat
  obtain ⟨d1, hde, hdp⟩ := mem_mCls hdot
  obtain ⟨x1, hx1e, _⟩ := mem_mCls ht1
  obtain ⟨x2, hx2e, _⟩ := mem_mCls ht2
  have ha1 : a1 = '@' := by simpa using ha
  have hd1 : d1 = '.' := by simpa using hdp
  refine ⟨l, d, x1 :: x2 :: c7, ?_, by simp⟩
  subst hc hc2 hc3 hc4 hc5 hc6 hae hde hx1e hx2e ha1 hd1
  simp

/-- C7 (claim): `extract_email` either returns no value or a string of
the form `local@domain.tld` with a top-level suffix of length ≥ 2. -/
theorem claim_C7_email_postcondition (text e : String)
    (h : extract_email text = some e) :
    ∃ l d t, e.data = l ++ '@' :: (d ++ '.' :: t) ∧ 2 ≤ t.length := by
  unfold extract_email at h
  obtain ⟨c, hc, he⟩ := Option.map_eq_some'.mp h
  obtain ⟨s, r, hm⟩ := searchM_sound hc
  have hdata : e.data = c := by rw [← he]
  rw [hdata]
  exact mem_email_shape hm

/-- C7 witness at a concrete input. -/
theorem claim_C7_witness :
    ∃ l d t, ("a@b.co").data = l ++ '@' :: (d ++ '.' :: t) ∧ 2 ≤ t.length :=
  claim_C7_email_postcondition ("a@b.co") ("a@b.co") (by decide)

/-- A value produced by one step of the phone loop passed the source's
own digit-count guard. -/
theorem phoneFromPat_digits {g : Matcher} {t : List Char} {p : String}
    (h : phoneFromPat g t = some p) :
    9 ≤ (p.data.filter Char.isDigit).length ∧
    (p.data.filter Char.isDigit).length ≤ 12 := by
  unfold phoneFromPat at h
  cases heq : searchG PHONE_LABEL g t with
  | none => rw [heq] at h; simp at h
  | some grp =>
    rw [heq] at h
    simp only at h
    split at h
    · rename_i hg
      have hp : p = String.mk (pyStrip (collapseSeps grp)) := by
        injection h with h2; exact h2.symm
      subst hp
      exact hg
    · simp at h

/-- C8 (claim): every phone value `extract_phone` returns has between
8 and 12 digits after separator stripping; the source in fact enforces
the tighter bound 9-12 before returning. -/
theorem claim_C8_phone_digit_count (text p : String)
    (h : extract_phone text = some p) :
    8 ≤ (p.data.filter Char.isDigit).length ∧
    (p.data.filter Char.isDigit).length ≤ 12 := by
  unfold extract_phone at h
  have hmem := firstSome_mem h
  rw [List.mem_map] at hmem
  obtain ⟨g, _, hval⟩ := hmem
  have hd := phoneFromPat_digits hval
  exact ⟨le_trans (by norm_num) hd.1, hd.2⟩

/-- C8 witness at a concrete input. -/
theorem claim_C8_witness :
    extract_phone ("0412 345 678") = some ("0412 345 678") ∧
    8 ≤ (("0412 345 678").data.filter Char.isDigit).length ∧
    (("0412 345 678").data.filter Char.isDigit).length ≤ 12 :=
  ⟨by decide,
   claim_C8_phone_digit_count ("0412 345 678") ("0412 345 678") (by decide)⟩

/-- C3 (claim): on the Scenario B text, the regex stage selects the
subject's labelled mobile number, never the referee's landline.  The
mobile pattern sits earlier in `PHONE_PATTERNS` than any landline
pattern, so the loop returns before the references block can match. -/
theorem claim_C3_reference_number_suppressed :
    extract_phone scenarioB = some ("0412 345 678") ∧
    extract_phone scenarioB ≠ some ("02 9876 5432") := by
  constructor
  · decide
  · decide

/-- C9 (claim): a line that, stripped and lowercased, is exactly a
skip word produces no name candidate; `extract_name` is the first
`some` of `nameFromLine` over the first 15 lines, so such a line is
never the returned name. -/
theorem claim_C9_section_header_rejected (s : List Char) (w : String)
    (hw : w ∈ SKIP_WORDS) (h : (pyStrip s).map pyLowerChar = w.data) :
    nameFromLine s = none := by
  by_cases hl : (pyStrip s).length < 3
  · unfold nameFromLine
    rw [if_pos hl]
  · have hlen : (pyStrip s).length = w.data.length := by
      have := congrArg List.length h
      simpa using this
    have hdrop : (pyStrip s).drop w.data.length = [] := by
      rw [← hlen, List.drop_length]
    have hskip : isSkipLine (pyStrip s) ((pyStrip s).map pyLowerChar) = true := by
      unfold isSkipLine
      rw [List.any_eq_true]
      refine ⟨w, hw, ?_⟩
      rw [hdrop, h]
      simp [pyStrip, List.dropWhile]
    unfold nameFromLine
    rw [if_neg hl, if_pos hskip]

/-- C9 witness: the capitalized header line `Experience`. -/
theorem claim_C9_witness : nameFromLine (("Experience").data) = none :=
  claim_C9_section_header_rejected (("Experience").data) ("experience")
    (by decide) (by decide)

/-- The cleaned line built by `stripTitle` is always the image of a
strip, hence itself stripped. -/
theorem stripTitle_trim (line lower : List Char) (hline : pyStrip line = line) :
    pyStrip (stripTitle line lower) = stripTitle line lower := by
  unfold stripTitle
  split
  · exact hline
  · dsimp only
    split
    · exact pyStrip_idem _
    · exact pyStrip_idem _

/-- Any accepted name candidate is stripped and has 1-5 tokens: the
acceptance guard is literally that token-count test. -/
theorem nameFromLine_spec {raw cs : List Char}
    (h : nameFromLine raw = some cs) :
    pyStrip cs = cs ∧ 1 ≤ (splitWS cs).length ∧ (splitWS cs).length ≤ 5 := by
  unfold nameFromLine at h
  dsimp only at h
  split at h
  · simp at h
  · split at h
    · simp at h
    · split at h
      · simp at h
      · split at h
        · simp at h
        · split at h
          · simp at h
          · split at h
            · rename_i hguard
              have hcs : cs = stripTitle (pyStrip raw) ((pyStrip raw).map pyLowerChar) := by
                injection h with h2; exact h2.symm
              subst hcs
              exact ⟨stripTitle_trim _ _ (pyStrip_idem raw), hguard.1, hguard.2.1⟩
            · simp at h

/-- C4 (amended): a name produced by `extract_name` itself is trimmed
with 1-5 whitespace-separated tokens; the email-local-part fallback of
`extract_with_regex` is exempt and can exceed five tokens. -/
theorem claim_C4_amended (text n : String) (h : extract_name text = some n) :
    pyStrip n.data = n.data ∧ 1 ≤ (splitWS n.data).length ∧
    (splitWS n.data).length ≤ 5 := by
  unfold extract_name at h
  obtain ⟨cs, hcs, he⟩ := Option.map_eq_some'.mp h
  have hmem := firstSome_mem hcs
  rw [List.mem_map] at hmem
  obtain ⟨raw, _, hval⟩ := hmem
  have hdata : n.data = cs := by rw [← he]
  rw [hdata]
  exact nameFromLine_spec hval

/-- C4 witness at the Scenario A text. -/
theorem claim_C4_witness :
    extract_name scenarioA = some ("John Smith") ∧
    pyStrip (("John Smith").data) = ("John Smith").data ∧
    1 ≤ (splitWS (("John Smith").data)).length ∧
    (splitWS (("John Smith").data)).length ≤ 5 :=
  ⟨by decide, claim_C4_amended scenarioA ("John Smith") (by decide)⟩

/-- C4 counterexample: an email whose local part has six long pieces
makes the fallback return a six-token name, violating the claimed 1-5
bound for the regex stage's name. -/
theorem claim_C4_counterexample :
    (extract_with_regex textSixTokens).name = some ("Ab Cd Ef Gh Ij Kl") ∧
    (splitWS (("Ab Cd Ef Gh Ij Kl").data)).length = 6 := by
  constructor
  · decide
  · decide

/-- C1 (amended): when the regex stage produced a phone value, the
text-path `process_resume` never replaces it: the phone is not in the
missing set, so the final phone equals the regex value whatever the AI
stage returns; no normalization or confidence weighing exists. -/
theorem claim_C1_amended (env : AIEnv) (text p : String)
    (h : (extract_with_regex text).phone = some p) (hp : ¬ p = "") :
    (process_resume env text false none).phone = some p := by
  have htr : optTruthy (extract_with_regex text).phone = true := by
    rw [h]; simp [optTruthy, hp]
  unfold process_resume
  simp only [Bool.false_and, Bool.false_eq_true, if_false, imagesTruthy]
  split
  · split
    · split
      · simp [h, optTruthy, hp]
      · split <;> simp [h]
    · split <;> simp [h]
  · simp [h]

/-- C1 witness at a text whose regex stage finds only the phone. -/
theorem claim_C1_witness :
    (extract_with_regex textPhoneOnly).phone = some ("0412 345 678") ∧
    (process_resume envAiPhone textPhoneOnly false none).phone =
      some ("0412 345 678") :=
  ⟨by decide,
   claim_C1_amended envAiPhone textPhoneOnly ("0412 345 678")
     (by decide) (by decide)⟩

/-- C1 counterexample: the AI stage succeeds and reports the phone
`02 9876 5432`, which does not normalize equal to the regex value
`0412 345 678`, yet the final phone is the regex value — the claim's
`prefer the AI value at confidence 0.88` never happens, and
`process_resume` attaches no confidence at all. -/
theorem claim_C1_counterexample :
    extract_with_ai_text envAiPhone =
      (⟨some ("Zed Zed"), none, some ("02 9876 5432")⟩, true, none) ∧
    specNormalizePhone ("0412 345 678") ≠ specNormalizePhone ("02 9876 5432") ∧
    (process_resume envAiPhone textPhoneOnly false none).phone =
      some ("0412 345 678") ∧
    (process_resume envAiPhone textPhoneOnly false none).phone ≠
      some ("02 9876 5432") := by
  refine ⟨by decide, by decide, by decide, by decide⟩

/-- C2 (amended): (1) if the AI call itself fails, the regex values
survive untouched, `ai_used` stays false and the failure message lands
in `error`; (2) an HTTP 402 yields the message `Insufficient AI
credits`, which contains `credit`; (3) with no credential the regex
values survive with `ai_used=False`, but the message is recorded only
when regex found none of the three fields. -/
theorem claim_C2_amended (env : AIEnv) (text : String) :
    ((!optTruthy (extract_with_regex text).name
        || !optTruthy (extract_with_regex text).email
        || !optTruthy (extract_with_regex text).phone) = true →
      env.hasKey = true →
      ∀ e, (extract_with_ai_text env).2.1 = false →
        (extract_with_ai_text env).2.2 = some e →
        process_resume env text false none =
          ⟨(extract_with_regex text).name, (extract_with_regex text).email,
           (extract_with_regex text).phone, false, some e⟩)
    ∧ (env.hasKey = true → ∀ c, env.textHttp = HttpOut.status 402 c →
        (extract_with_ai_text env).2.2 = some ("Insufficient AI credits") ∧
        containsSub ("credit".data)
          (("Insufficient AI credits").data.map pyLowerChar) = true)
    ∧ ((!optTruthy (extract_with_regex text).name
        || !optTruthy (extract_with_regex text).email
        || !optTruthy (extract_with_regex text).phone) = true →
      env.hasKey = false →
      process_resume env text false none =
        ⟨(extract_with_regex text).name, (extract_with_regex text).email,
         (extract_with_regex text).phone, false,
         if (!optTruthy (extract_with_regex text).name
             && !optTruthy (extract_with_regex text).email
             && !optTruthy (extract_with_regex text).phone) = true
         then some ("No API key configured") else none⟩) := by
  refine ⟨?_, ?_, ?_⟩
  · intro hm hk e hfail herr
    unfold process_resume
    simp only [Bool.false_and, Bool.false_eq_true, if_false, imagesTruthy]
    rw [if_pos hm]
    have hcr1 : (check_ai_credits env.hasKey).1 = true := by rw [hk]; decide
    rw [if_pos hcr1]
    rw [if_neg (by simp [hfail])]
    rw [herr]
  · intro hk c hhttp
    refine ⟨?_, by decide⟩
    unfold extract_with_ai_text
    rw [hk, hhttp]
    rfl
  · intro hm hk
    unfold process_resume
    simp only [Bool.false_and, Bool.false_eq_true, if_false, imagesTruthy]
    rw [if_pos hm]
    have hcr1 : ¬((check_ai_credits env.hasKey).1 = true) := by
      rw [hk]; simp [check_ai_credits]
    rw [if_neg hcr1]
    have hcr2 : (check_ai_credits env.hasKey).2 = some ("No API key configured") := by
      rw [hk]; decide
    by_cases hb : (!optTruthy (extract_with_regex text).name
        && !optTruthy (extract_with_regex text).email
        && !optTruthy (extract_with_regex text).phone) = true
    · simp [hcr2, hb]
    · have hb2 : (!optTruthy (extract_with_regex text).name
          && !optTruthy (extract_with_regex text).email
          && !optTruthy (extract_with_regex text).phone) = false := by
        simpa using hb
      simp [hcr2, hb2]

/-- C2 witness: HTTP 402 with an email-only text — the regex email is
retained and the error message contains `credit`. -/
theorem claim_C2_witness :
    process_resume env402 textEmailOnly false none =
      ⟨none, some ("john@x.com"), none, false, some ("Insufficient AI credits")⟩ ∧
    containsSub ("credit".data)
      (("Insufficient AI credits").data.map pyLowerChar) = true := by
  constructor
  · have h := (claim_C2_amended env402 textEmailOnly).1 (by decide) (by decide)
      ("Insufficient AI credits") (by decide) (by decide)
    rw [h]
    decide
  · exact ((claim_C2_amended env402 textEmailOnly).2.1 (by decide) ("") (by decide)).2

/-- C2 counterexample: with no credential (a failure reason listed by
the claim) and a regex-found email, the pipeline keeps the field and
`ai_used=False`, but no error message is propagated — `error` is
`None`, contrary to the claim. -/
theorem claim_C2_counterexample :
    envNoKey.hasKey = false ∧
    (process_resume envNoKey textEmailOnly false none).email =
      some ("john@x.com") ∧
    (process_resume envNoKey textEmailOnly false none).ai_used = false ∧
    (process_resume envNoKey textEmailOnly false none).error = none := by
  refine ⟨by decide, by decide, by decide, by decide⟩

/-- C5 (amended): a 200 response whose content does not parse as JSON
(the sentinel included) is non-fatal: the regex-found fields survive,
the missing fields stay absent, `ai_used` stays false — but the parse
failure is recorded in the result's `error` field, exactly like the
other AI failures. -/
theorem claim_C5_amended (env : AIEnv) (text content : String)
    (hk : env.hasKey = true)
    (hh : env.textHttp = HttpOut.status 200 content)
    (hp : env.jparse (String.mk (pyStrip (stripFence content.data))) = none)
    (hm : (!optTruthy (extract_with_regex text).name
      || !optTruthy (extract_with_regex text).email
      || !optTruthy (extract_with_regex text).phone) = true) :
    process_resume env text false none =
      ⟨(extract_with_regex text).name, (extract_with_regex text).email,
       (extract_with_regex text).phone, false,
       some ("Failed to parse AI response")⟩ := by
  have hext : extract_with_ai_text env =
      (emptyAI, false, some ("Failed to parse AI response")) := by
    unfold extract_with_ai_text
    rw [hk, hh]
    simp [hp]
  unfold process_resume
  simp only [Bool.false_and, Bool.false_eq_true, if_false, imagesTruthy]
  rw [if_pos hm]
  have hcr1 : (check_ai_credits env.hasKey).1 = true := by rw [hk]; decide
  rw [if_pos hcr1]
  rw [if_neg (by simp [hext])]
  rw [hext]

/-- C5 witness: the sentinel content on an email-only text. -/
theorem claim_C5_witness :
    process_resume envBadJson textEmailOnly false none =
      ⟨none, some ("john@x.com"), none, false,
       some ("Failed to parse AI response")⟩ := by
  have h := claim_C5_amended envBadJson textEmailOnly ("NOT_FOUND")
    (by decide) (by decide) rfl (by decide)
  rw [h]
  decide

/-- C5 counterexample: the claim's `not as an error` fails — on
unparsable content the pipeline records the parse-failure message in
`error` (while indeed keeping the regex email and leaving the missing
fields absent). -/
theorem claim_C5_counterexample :
    (process_resume envBadJson textEmailOnly false none).error =
      some ("Failed to parse AI response") ∧
    (process_resume envBadJson textEmailOnly false none).email =
      some ("john@x.com") ∧
    (process_resume envBadJson textEmailOnly false none).name = none ∧
    (process_resume envBadJson textEmailOnly false none).phone = none := by
  refine ⟨by decide, by decide, by decide, by decide⟩

/-- Every failing outcome of the vision extractor carries a message. -/
theorem vision_fail_msg (env : AIEnv) (imgs : List Nat) :
    (extract_with_ai_vision env imgs).2.1 = false →
    (extract_with_ai_vision env imgs).2.2.isSome = true := by
  unfold extract_with_ai_vision
  split
  · intro _; rfl
  · split
    · intro _; rfl
    · split
      · intro _; rfl
      · intro _; rfl
      · split
        · intro _; rfl
        · split
          · intro _; rfl
          · split
            · intro _; rfl
            · split
              · intro hfail; simp at hfail
              · intro _; rfl

/-- C10 (claim): with `is_image_based=True` and a non-empty image
list, `process_resume` never consults the regex stage: the result is a
pure function of the vision call — all three fields from the AI with
`ai_used=True` on success, all `None` plus a set `error` on failure —
and is independent of the accompanying text. -/
theorem claim_C10_image_bypass (env : AIEnv) (text : String)
    (imgs : List Nat) (h : imgs ≠ []) :
    (process_resume env text true (some imgs) =
      (if (extract_with_ai_vision env imgs).2.1 then
        ⟨(extract_with_ai_vision env imgs).1.name,
         (extract_with_ai_vision env imgs).1.email,
         (extract_with_ai_vision env imgs).1.phone, true, none⟩
      else ⟨none, none, none, false, (extract_with_ai_vision env imgs).2.2⟩))
    ∧ (∀ text2, process_resume env text true (some imgs) =
        process_resume env text2 true (some imgs))
    ∧ ((extract_with_ai_vision env imgs).2.1 = false →
        (extract_with_ai_vision env imgs).2.2.isSome = true) := by
  have himg : (true && imagesTruthy (some imgs)) = true := by
    cases imgs with
    | nil => exact absurd rfl h
    | cons a t => rfl
  have hmain : ∀ t2 : String, process_resume env t2 true (some imgs) =
      (if (extract_with_ai_vision env imgs).2.1 then
        ⟨(extract_with_ai_vision env imgs).1.name,
         (extract_with_ai_vision env imgs).1.email,
         (extract_with_ai_vision env imgs).1.phone, true, none⟩
      else ⟨none, none, none, false, (extract_with_ai_vision env imgs).2.2⟩) := by
    intro t2
    unfold process_resume
    rw [if_pos himg]
    rfl
  refine ⟨hmain text, fun t2 => (hmain text).trans (hmain t2).symm,
    vision_fail_msg env imgs⟩

/-- C10 witness: a successful vision call on a text whose regex stage
would have found all three fields — they are ignored. -/
theorem claim_C10_witness :
    process_resume envVision scenarioA true (some [0]) =
      ⟨some ("Vera Vision"), some ("v@ocr.co"), some ("0412 111 222"),
       true, none⟩ ∧
    (extract_with_regex scenarioA).name = some ("John Smith") := by
  constructor
  · have h := (claim_C10_image_bypass envVision scenarioA [0] (by decide)).1
    rw [h]
    decide
  · decide

/-- C6 (amended): on the Scenario A text the pipeline extracts all
three fields by regex with `ai_used=False`, but the result record of
`process_file` carries no regex confidences or provenance:
`process_resume` returns neither key, so every confidence defaults to
0.0 and every method to `none`. -/
theorem claim_C6_amended :
    process_file envNoKey ("") scenarioA =
      ⟨some ("John Smith"), some ("john.smith@email.com"),
       some ("0412 345 678"), false, none, "success",
       0, 0, 0, "none", "none", "none"⟩ := by
  decide

/-- C6 counterexample: the claimed email confidence 0.95 is absent —
the pipeline reports 0.0 for the email found on Scenario A. -/
theorem claim_C6_counterexample :
    (process_file envNoKey ("") scenarioA).confidence_email = 0 ∧
    (0 : ℚ) ≠ 95 / 100 := by
  constructor
  · decide
  · norm_num
